import Mathlib

/-!
Verification of the devflow compatibility-resolution engine
(`devflow/tools/nuget_api.py` and `devflow/tools/google_search.py`).

Strings are modelled as lists of Unicode code points (`Str := List Nat`):
Python string operations used by the code (lower, replace, `in`,
concatenation, slicing, lexicographic comparison) become plain list
functions over code points, so every definition is executable and
decidable on concrete inputs.
-/

/-- Python strings, as lists of Unicode code points. -/
abbrev Str : Type := List Nat

/-- Code points of a Lean string literal, used to write concrete inputs. -/
def str (s : String) : Str := s.toList.map Char.toNat

/-- ASCII lowercasing of one code point, as Python `str.lower` acts on the
ASCII identifiers this program manipulates. -/
def lowerChar (c : Nat) : Nat := if 65 ≤ c ∧ c ≤ 90 then c + 32 else c

/-- Python `s.lower()`. -/
def lowerStr (s : Str) : Str := s.map lowerChar

/-- Python `s.replace(c, '')`: remove every occurrence of a code point. -/
def removeAll (c : Nat) (s : Str) : Str := s.filter (fun d => d ≠ c)

/-- `NuGetAPI._normalize_framework`: lowercase, strip `.` (46) and `-` (45),
and prepend `net` when the result does not already start with `net`. -/
def _normalize_framework (framework : Str) : Str :=
  if (str "net").isPrefixOf (removeAll 45 (removeAll 46 (lowerStr framework))) then
    removeAll 45 (removeAll 46 (lowerStr framework))
  else
    str "net" ++ removeAll 45 (removeAll 46 (lowerStr framework))

/-- `NuGetAPI.FRAMEWORK_COMPATIBILITY`: the static framework-compatibility
table, as an association list in the source's (insertion) order. -/
def FRAMEWORK_COMPATIBILITY : List (Str × List Str) :=
  [(str "netstandard1.0", [str "net45", str "net40", str "net35", str "net20"]),
   (str "netstandard1.1", [str "net45", str "net40", str "net35", str "net20"]),
   (str "netstandard1.2", [str "net45", str "net40", str "net35", str "net20"]),
   (str "netstandard1.3", [str "net45", str "net40", str "net35", str "net20"]),
   (str "netstandard1.4", [str "net45", str "net40", str "net35", str "net20"]),
   (str "netstandard1.5", [str "net45", str "net40", str "net35", str "net20"]),
   (str "netstandard1.6", [str "net45", str "net40", str "net35", str "net20"]),
   (str "netstandard2.0", [str "net48", str "net472", str "net471", str "net47", str "net462", str "net461", str "net46", str "net452", str "net451", str "net45", str "net40", str "net35", str "net20"]),
   (str "netstandard2.1", [str "net48", str "net472", str "net471", str "net47", str "net462", str "net461", str "net46", str "net452", str "net451", str "net45", str "net40", str "net35", str "net20"]),
   (str "net6.0", [str "net48", str "net472", str "net471", str "net47", str "net462", str "net461", str "net46", str "net452", str "net451", str "net45", str "net40", str "net35", str "net20"]),
   (str "net7.0", [str "net48", str "net472", str "net471", str "net47", str "net462", str "net461", str "net46", str "net452", str "net451", str "net45", str "net40", str "net35", str "net20"]),
   (str "net8.0", [str "net48", str "net472", str "net471", str "net47", str "net462", str "net461", str "net46", str "net452", str "net451", str "net45", str "net40", str "net35", str "net20"]),
   (str "net48", [str "net48", str "net472", str "net471", str "net47", str "net462", str "net461", str "net46", str "net452", str "net451", str "net45", str "net40", str "net35", str "net20"]),
   (str "net472", [str "net472", str "net471", str "net47", str "net462", str "net461", str "net46", str "net452", str "net451", str "net45", str "net40", str "net35", str "net20"]),
   (str "net471", [str "net471", str "net47", str "net462", str "net461", str "net46", str "net452", str "net451", str "net45", str "net40", str "net35", str "net20"]),
   (str "net47", [str "net47", str "net462", str "net461", str "net46", str "net452", str "net451", str "net45", str "net40", str "net35", str "net20"]),
   (str "net462", [str "net462", str "net461", str "net46", str "net452", str "net451", str "net45", str "net40", str "net35", str "net20"]),
   (str "net461", [str "net461", str "net46", str "net452", str "net451", str "net45", str "net40", str "net35", str "net20"]),
   (str "net46", [str "net46", str "net452", str "net451", str "net45", str "net40", str "net35", str "net20"]),
   (str "net452", [str "net452", str "net451", str "net45", str "net40", str "net35", str "net20"]),
   (str "net451", [str "net451", str "net45", str "net40", str "net35", str "net20"]),
   (str "net45", [str "net45", str "net40", str "net35", str "net20"]),
   (str "net40", [str "net40", str "net35", str "net20"]),
   (str "net35", [str "net35", str "net20"]),
   (str "net20", [str "net20"])]

/-- `NuGetAPI._is_framework_compatible`: direct membership of the normalized
target in the supported set, else a scan over the static table - for each
entry whose list contains the target, compatible when any identifier of
that same list is supported. -/
def _is_framework_compatible (target : Str) (supported : List Str) : Bool :=
  if _normalize_framework target ∈ supported then true
  else
    FRAMEWORK_COMPATIBILITY.any fun p =>
      decide (_normalize_framework target ∈ p.2) &&
        p.2.any fun f => decide (f ∈ supported)

/-- Python `s.split('.')` on code points (46 = `.`), keeping empty segments. -/
def splitDot : Str → List Str
  | [] => [[]]
  | c :: rest =>
    if c = 46 then [] :: splitDot rest
    else
      match splitDot rest with
      | [] => [[c]]
      | p :: ps => (c :: p) :: ps

/-- ASCII digit code point. -/
def isDigit (c : Nat) : Bool := decide (48 ≤ c ∧ c ≤ 57)

/-- Decimal value of a nonempty all-digit segment, else `none`. -/
def parseNum (s : Str) : Option Nat :=
  if s ≠ [] ∧ s.all isDigit = true then
    some (s.foldl (fun acc c => acc * 10 + (c - 48)) 0)
  else none

/-- Modelled from the spec: `packaging.version.Version` is an external
library, so per spec section 4.3 ("a string is a valid version iff it parses
under standard dotted-numeric versioning") a version string parses to its
list of dot-separated numeric components, and `none` models
`InvalidVersion`. -/
def parseVersion (s : Str) : Option (List Nat) :=
  (splitDot s).mapM parseNum

/-- Modelled from the spec: parsed versions are ordered "by numeric-tuple
comparison" (spec section 4.3), the shorter tuple padded with zeros. -/
def verLe : List Nat → List Nat → Bool
  | [], _ => true
  | a :: as, [] => a == 0 && verLe as []
  | a :: as, b :: bs => decide (a < b) || (a == b && verLe as bs)

/-- The sort key `Version(v)` of a version string (only applied to strings
that parsed successfully). -/
def verKey (v : Str) : List Nat := (parseVersion v).getD []

/-- `a` is at least `b` by parsed version: the descending sort order of
`compatible_versions.sort(key=Version, reverse=True)`. -/
def versionGe (a b : Str) : Prop := verLe (verKey b) (verKey a) = true

instance : DecidableRel versionGe := fun a b => by
  unfold versionGe
  infer_instance

/-- One entry of `catalogEntry.dependencyGroups`: only its `targetFramework`
field is read by the compatibility resolver ("" models a missing field). -/
structure DependencyGroup where
  targetFramework : Str
deriving DecidableEq

/-- One registry version record (`catalogEntry`), as the claims' data model
describes it: version string, publish date, downloads, dependency groups. -/
structure VersionRecord where
  version : Str
  published : Option Str
  downloads : Nat
  dependencyGroups : List DependencyGroup
deriving DecidableEq

/-- One element of the `version_details` output of
`get_compatible_versions`. -/
structure VersionInfo where
  version : Str
  published : Option Str
  downloads : Nat
  supported_frameworks : List Str
deriving DecidableEq

/-- Descending order on `version_details` entries, by parsed version of the
`version` field. -/
def versionInfoGe (a b : VersionInfo) : Prop :=
  verLe (verKey b.version) (verKey a.version) = true

instance : DecidableRel versionInfoGe := fun a b => by
  unfold versionInfoGe
  infer_instance

/-- Python `set.add`: sets of strings are modelled as duplicate-free lists. -/
def insertNew (l : List Str) (x : Str) : List Str :=
  if x ∈ l then l else l ++ [x]

/-- `NuGetAPI._get_supported_frameworks`: the set of normalized
`targetFramework` identifiers of the dependency groups, skipping falsy
(empty) ones. -/
def _get_supported_frameworks (dependency_groups : List DependencyGroup) : List Str :=
  dependency_groups.foldl
    (fun frameworks g =>
      if g.targetFramework = [] then frameworks
      else insertNew frameworks (_normalize_framework g.targetFramework))
    []

/-- The uniform result envelope of `get_compatible_versions`. -/
inductive CompatResult where
  | success (package_id target_framework : Str) (compatible_versions : List Str)
      (latest_compatible : Option Str) (version_details : List VersionInfo)
  | error (message : Str)
deriving DecidableEq

/-- The `status` field of the envelope. -/
def CompatResult.statusStr : CompatResult → Str
  | .success _ _ _ _ _ => str "success"
  | .error _ => str "error"

/-- The `compatible_versions` field ([] on an error result). -/
def CompatResult.compatibleVersions : CompatResult → List Str
  | .success _ _ cv _ _ => cv
  | .error _ => []

/-- The `latest_compatible` field (`none` on an error result). -/
def CompatResult.latestCompatible : CompatResult → Option Str
  | .success _ _ _ lc _ => lc
  | .error _ => none

/-- The `version_details` field ([] on an error result). -/
def CompatResult.versionDetails : CompatResult → List VersionInfo
  | .success _ _ _ _ vd => vd
  | .error _ => []

/-- The loop body of `get_compatible_versions`: skip a record whose version
does not parse (`except InvalidVersion: continue`), then append the record's
version and details when its supported frameworks are compatible with the
(already normalized) target. -/
def collectStep (target : Str) (acc : List Str × List VersionInfo)
    (r : VersionRecord) : List Str × List VersionInfo :=
  match parseVersion r.version with
  | none => acc
  | some _ =>
    if _is_framework_compatible target (_get_supported_frameworks r.dependencyGroups) then
      (acc.1 ++ [r.version],
       acc.2 ++ [⟨r.version, r.published, r.downloads,
         _get_supported_frameworks r.dependencyGroups⟩])
    else acc

/-- `NuGetAPI.get_compatible_versions`, with the registry HTTP fetch
abstracted as an input: `Except.error e` models a
`requests.exceptions.RequestException` with message `e`, `Except.ok records`
the parsed JSON catalog. Normalizes the target, collects the records whose
version parses and whose supported-framework set is compatible, sorts both
output lists descending by parsed version, and reports the head as
`latest_compatible`. -/
def get_compatible_versions (fetch : Except Str (List VersionRecord))
    (package_id target_framework : Str) : CompatResult :=
  match fetch with
  | .error e => .error (str "Failed to fetch compatible versions: " ++ e)
  | .ok records =>
    let target := _normalize_framework target_framework
    let pair := records.foldl (collectStep target) ([], [])
    let compatible_versions := List.insertionSort versionGe pair.1
    let version_details := List.insertionSort versionInfoGe pair.2
    .success package_id target compatible_versions compatible_versions.head?
      version_details

/-- The record filter of claim C1: version parses and the supported-framework
set of the record's dependency groups is compatible with the target. -/
def compatPred (target : Str) (r : VersionRecord) : Bool :=
  (parseVersion r.version).isSome &&
    _is_framework_compatible target (_get_supported_frameworks r.dependencyGroups)

/-- The `version_details` entry built for a matching record. -/
def mkVersionInfo (r : VersionRecord) : VersionInfo :=
  ⟨r.version, r.published, r.downloads, _get_supported_frameworks r.dependencyGroups⟩

/-- Specification-side selection, following claim C1's wording: exactly the
records whose version strings parse and whose normalized declared framework
sets are compatible with the normalized target, sorted descending by parsed
version. -/
def compatibleVersionsSpec (records : List VersionRecord) (target_framework : Str) :
    List Str :=
  List.insertionSort versionGe
    ((records.filter (compatPred (_normalize_framework target_framework))).map
      VersionRecord.version)

/-- Concrete catalog for the C4 witness: one record whose only declared
framework is unrelated to the target. -/
def c4Records : List VersionRecord := [⟨str "1.0.0", none, 0, [⟨str "xyz"⟩]⟩]

/-- Concrete catalog for the C5 witness: a valid record and a record whose
version string does not parse. -/
def c5Records : List VersionRecord :=
  [⟨str "1.0.0", none, 0, [⟨str "net45"⟩]⟩,
   ⟨str "notaversion", none, 0, [⟨str "net45"⟩]⟩]

/-- Python substring test `needle in haystack`. -/
def containsSub (needle haystack : Str) : Bool := decide (needle <:+: haystack)

/-- Python lexicographic string order (by code point), the order `sorted`
uses on plain strings. -/
def lexLe : Str → Str → Bool
  | [], _ => true
  | _ :: _, [] => false
  | a :: as, b :: bs => decide (a < b) || (a == b && lexLe as bs)

/-- `a` is at least `b` as a plain string: the descending order of
`sorted(..., reverse=True)` over strings. -/
def strGe (a b : Str) : Prop := lexLe b a = true

instance : DecidableRel strGe := fun a b => by
  unfold strGe
  infer_instance

/-- One Google search result: the fields `search` extracts from an item
(`pagemap` is never read by the extraction routines). -/
structure SearchResult where
  title : Str
  link : Str
  snippet : Str
deriving DecidableEq

/-- Python `f"{result['title']} {result['snippet']}"` (32 = space). -/
def resultText (r : SearchResult) : Str := r.title ++ [32] ++ r.snippet

/-- Length of the maximal digit run at the start of the text (`\d+`). -/
def digitRunLen (s : Str) : Nat := (s.takeWhile isDigit).length

/-- Matcher for `\d+\.\d+\.\d+` at the start of the text, returning the
match length. Each `\d+` is forced maximal: shrinking one puts a digit
where `.` is required, so greedy matching never backtracks usefully. -/
def matchV3At (s : Str) : Option Nat :=
  if digitRunLen s = 0 then none
  else if (s.drop (digitRunLen s)).head? = some 46 then
    match s.drop (digitRunLen s + 1) with
    | s2 =>
      if digitRunLen s2 = 0 then none
      else if (s2.drop (digitRunLen s2)).head? = some 46 then
        match s2.drop (digitRunLen s2 + 1) with
        | s4 =>
          if digitRunLen s4 = 0 then none
          else some (digitRunLen s + 1 + digitRunLen s2 + 1 + digitRunLen s4)
      else none
  else none

/-- Matcher for `\d+\.\d+(?!\.)` at the start of the text, returning the
match length. The first `\d+` is forced maximal; the second is maximal when
the negative lookahead allows it, else it backtracks by exactly one digit
(after which a digit follows, satisfying `(?!\.)`), else the match fails. -/
def matchV2At (s : Str) : Option Nat :=
  if digitRunLen s = 0 then none
  else if (s.drop (digitRunLen s)).head? = some 46 then
    match s.drop (digitRunLen s + 1) with
    | s2 =>
      if digitRunLen s2 = 0 then none
      else if (s2.drop (digitRunLen s2)).head? = some 46 then
        if 2 ≤ digitRunLen s2 then some (digitRunLen s + 1 + (digitRunLen s2 - 1))
        else none
      else some (digitRunLen s + 1 + digitRunLen s2)
  else none

/-- Matcher for `CVE-\d{4}-\d{4,7}` at the start of the text, returning the
match length: the literal `CVE-` (67, 86, 69, 45), exactly four digits (a
fifth digit makes the required `-` impossible), `-`, then four to seven
digits, greedy. -/
def matchCVEAt (s : Str) : Option Nat :=
  match s with
  | 67 :: 86 :: 69 :: 45 :: rest =>
    if digitRunLen rest = 4 then
      if (rest.drop 4).head? = some 45 then
        if 4 ≤ digitRunLen (rest.drop 5) then
          some (9 + min (digitRunLen (rest.drop 5)) 7)
        else none
      else none
    else none
  | _ => none

/-- `re.findall`: scan left to right, emit each leftmost non-overlapping
match, resume right after it. Fuel bounds the recursion by the text length:
every step consumes at least one character, since each matcher above only
returns positive lengths. -/
def findAux (matchAt : Str → Option Nat) : Nat → Str → List Str
  | 0, _ => []
  | _, [] => []
  | fuel + 1, c :: rest =>
    match matchAt (c :: rest) with
    | some n => (c :: rest).take n :: findAux matchAt fuel ((c :: rest).drop n)
    | none => findAux matchAt fuel rest

/-- `re.findall(pattern, s)` for a pattern given by its start-anchored
matcher. -/
def findall (matchAt : Str → Option Nat) (s : Str) : List Str :=
  findAux matchAt s.length s

/-- The loop body of `GoogleSearchAPI.extract_versions`: a result whose
lowercased title+snippet contains both the package name and the target
framework (case-insensitive) contributes its `\d+\.\d+\.\d+` matches and
then its `\d+\.\d+(?!\.)` matches to the version set. -/
def extractStep (package_name target_framework : Str) (versions : List Str)
    (result : SearchResult) : List Str :=
  if containsSub (lowerStr package_name) (lowerStr (resultText result)) &&
      containsSub (lowerStr target_framework) (lowerStr (resultText result)) then
    (findall matchV2At (lowerStr (resultText result))).foldl insertNew
      ((findall matchV3At (lowerStr (resultText result))).foldl insertNew versions)
  else versions

/-- `GoogleSearchAPI.extract_versions`: accumulate the version set over the
results, then `sorted(list(versions), reverse=True)` - descending as plain
strings. -/
def extract_versions (search_results : List SearchResult)
    (package_name target_framework : Str) : List Str :=
  List.insertionSort strGe
    (search_results.foldl (extractStep package_name target_framework) [])

/-- One extracted vulnerability record. -/
structure VulnRecord where
  id : Str
  source : Str
  description : Str
  severity : Str
deriving DecidableEq

/-- The value `_extract_vulnerability_info` returns. -/
structure VulnInfo where
  has_vulnerabilities : Bool
  vulnerabilities : List VulnRecord
deriving DecidableEq

/-- `GoogleSearchAPI._extract_severity`: first-match priority over the
ordered keywords critical, high, medium, low in the lowercased text,
defaulting to "unknown". -/
def _extract_severity (text : Str) : Str :=
  if containsSub (str "critical") (lowerStr text) then str "critical"
  else if containsSub (str "high") (lowerStr text) then str "high"
  else if containsSub (str "medium") (lowerStr text) then str "medium"
  else if containsSub (str "low") (lowerStr text) then str "low"
  else str "unknown"

/-- `GoogleSearchAPI._extract_vulnerability_info`: one record per
`CVE-\d{4}-\d{4,7}` match in each result's title+snippet, carrying the
result's link and snippet and the severity extracted from that same text
(the `package_name` and `version` parameters are unused, as in the
source). -/
def _extract_vulnerability_info (results : List SearchResult)
    (_package_name _version : Str) : VulnInfo :=
  let vulnerabilities := results.foldl
    (fun vulns result =>
      vulns ++ (findall matchCVEAt (resultText result)).map
        (fun cve => ⟨cve, result.link, result.snippet,
          _extract_severity (resultText result)⟩))
    []
  ⟨decide (0 < vulnerabilities.length), vulnerabilities⟩

/-- `GoogleSearchAPI.JAVA_RUNTIME_COMPATIBILITY`: the static Java runtime
lineage table, in the source's order. -/
def JAVA_RUNTIME_COMPATIBILITY : List (Str × List Str) :=
  [(str "java21", [str "java20", str "java19", str "java18", str "java17", str "java16", str "java15", str "java14", str "java13", str "java12", str "java11", str "java8"]),
   (str "java20", [str "java19", str "java18", str "java17", str "java16", str "java15", str "java14", str "java13", str "java12", str "java11", str "java8"]),
   (str "java19", [str "java18", str "java17", str "java16", str "java15", str "java14", str "java13", str "java12", str "java11", str "java8"]),
   (str "java18", [str "java17", str "java16", str "java15", str "java14", str "java13", str "java12", str "java11", str "java8"]),
   (str "java17", [str "java16", str "java15", str "java14", str "java13", str "java12", str "java11", str "java8"]),
   (str "java16", [str "java15", str "java14", str "java13", str "java12", str "java11", str "java8"]),
   (str "java15", [str "java14", str "java13", str "java12", str "java11", str "java8"]),
   (str "java14", [str "java13", str "java12", str "java11", str "java8"]),
   (str "java13", [str "java12", str "java11", str "java8"]),
   (str "java12", [str "java11", str "java8"]),
   (str "java11", [str "java8"]),
   (str "java8", [str "java8"])]

/-- The runtime-chain step of
`GoogleSearchAPI._extract_java_compatibility_info` (the spec's
`is_compatible_chain`): true when some supported runtime appears in the
lineage list `JAVA_RUNTIME_COMPATIBILITY.get(target_runtime.lower(), [])`. -/
def is_compatible_chain (target_runtime : Str)
    (supported_runtimes : List Str) : Bool :=
  supported_runtimes.any fun runtime =>
    decide (runtime ∈
      (JAVA_RUNTIME_COMPATIBILITY.lookup (lowerStr target_runtime)).getD [])

/-- One entry of the `versions` list `get_package_versions` builds:
`catalogEntry.get("version")` can be absent (`none` models Python `None`),
`published` likewise, `downloads` defaults to 0. -/
structure RawVersionEntry where
  version : Option Str
  published : Option Str
  downloads : Nat
deriving DecidableEq

/-- The envelope of `get_package_versions`. -/
inductive VersionsResult where
  | success (package_id : Str) (versions : List RawVersionEntry)
  | error (message : Str)
deriving DecidableEq

/-- Descending Python-string order on raw entries by their version key;
only applied when every key is a string. -/
def rawVersionGe (a b : RawVersionEntry) : Prop :=
  lexLe (b.version.getD []) (a.version.getD []) = true

instance : DecidableRel rawVersionGe := fun a b => by
  unfold rawVersionGe
  infer_instance

/-- Python `sorted(versions, key=lambda x: x["version"], reverse=True)`.
With two or more elements CPython's sort compares every element's key at
least once (run detection and binary insertion), and comparing `None` with
`None` or with a string raises `TypeError`; with all keys strings it is a
stable descending lexicographic sort. `Except.error ()` models the raised
`TypeError`. -/
def pySortedByVersionDesc (versions : List RawVersionEntry) :
    Except Unit (List RawVersionEntry) :=
  if 2 ≤ versions.length ∧ ∃ v ∈ versions, v.version = none then
    Except.error ()
  else
    Except.ok (List.insertionSort rawVersionGe versions)

/-- `NuGetAPI.get_package_versions`, the registry fetch abstracted as an
input (`Except.error e` a `requests.exceptions.RequestException`). Only
`RequestException` is caught, so the `TypeError` raised while sorting
entries with missing version strings escapes: the outer `Except.error ()`
models an exception propagating to the caller. -/
def get_package_versions (fetch : Except Str (List RawVersionEntry))
    (package_id : Str) : Except Unit VersionsResult :=
  match fetch with
  | .error e => .ok (.error (str "Failed to fetch versions: " ++ e))
  | .ok versions =>
    match pySortedByVersionDesc versions with
    | .error _ => .error ()
    | .ok sorted => .ok (.success package_id sorted)

lemma lowerChar_idem (c : Nat) : lowerChar (lowerChar c) = lowerChar c := by
  by_cases h : 65 ≤ c ∧ c ≤ 90
  · simp only [lowerChar, if_pos h]
    rw [if_neg (by omega)]
  · simp only [lowerChar, if_neg h]

lemma mem_strip_lower {c : Nat} {s : Str}
    (h : c ∈ removeAll 45 (removeAll 46 (lowerStr s))) : lowerChar c = c := by
  rcases List.mem_map.mp (List.mem_filter.mp (List.mem_filter.mp h).1).1
    with ⟨a, _, rfl⟩
  exact lowerChar_idem a

lemma mem_strip_not_sep {c : Nat} {s : Str}
    (h : c ∈ removeAll 45 (removeAll 46 (lowerStr s))) : c ≠ 46 ∧ c ≠ 45 := by
  refine ⟨?_, ?_⟩
  · have := (List.mem_filter.mp (List.mem_filter.mp h).1).2
    simpa using this
  · have := (List.mem_filter.mp h).2
    simpa using this

lemma mem_normalize_lower {c : Nat} {s : Str} (h : c ∈ _normalize_framework s) :
    lowerChar c = c := by
  unfold _normalize_framework at h
  split at h
  · exact mem_strip_lower h
  · rcases List.mem_append.mp h with h | h
    · fin_cases h <;> rfl
    · exact mem_strip_lower h

lemma mem_normalize_not_sep {c : Nat} {s : Str} (h : c ∈ _normalize_framework s) :
    c ≠ 46 ∧ c ≠ 45 := by
  unfold _normalize_framework at h
  split at h
  · exact mem_strip_not_sep h
  · rcases List.mem_append.mp h with h | h
    · fin_cases h <;> simp
    · exact mem_strip_not_sep h

lemma normalize_starts_net (s : Str) :
    (str "net").isPrefixOf (_normalize_framework s) = true := by
  unfold _normalize_framework
  split
  · assumption
  · rw [List.isPrefixOf_iff_prefix]
    exact List.prefix_append _ _

lemma normalize_fixed_core (s : Str) :
    removeAll 45 (removeAll 46 (lowerStr (_normalize_framework s))) =
      _normalize_framework s := by
  have h1 : lowerStr (_normalize_framework s) = _normalize_framework s := by
    unfold lowerStr
    rw [List.map_congr_left (fun c hc => mem_normalize_lower hc), List.map_id']
  rw [h1]
  have h2 : removeAll 46 (_normalize_framework s) = _normalize_framework s := by
    unfold removeAll
    rw [List.filter_eq_self]
    intro c hc
    simpa using (mem_normalize_not_sep hc).1
  rw [h2]
  unfold removeAll
  rw [List.filter_eq_self]
  intro c hc
  simpa using (mem_normalize_not_sep hc).2

/-- C9: the framework-identifier normalizer is idempotent; it is a total
function over all (code-point) strings by construction. -/
theorem normalize_framework_idempotent (s : Str) :
    _normalize_framework (_normalize_framework s) = _normalize_framework s := by
  conv_lhs => rw [_normalize_framework.eq_def]
  rw [normalize_fixed_core s]
  simp [normalize_starts_net s]

/-- C9 witness: idempotence evaluated at a concrete raw identifier. -/
theorem normalize_framework_idempotent_witness :
    _normalize_framework (_normalize_framework (str "NET-4.8")) =
      _normalize_framework (str "NET-4.8") :=
  normalize_framework_idempotent (str "NET-4.8")

/-- C2: the compatibility check returns true iff the normalized target is
directly supported, or some table entry lists the normalized target and
also lists a supported identifier; false in every other case. -/
theorem is_framework_compatible_iff (target : Str) (supported : List Str) :
    _is_framework_compatible target supported = true ↔
      (_normalize_framework target ∈ supported ∨
        ∃ k lst, (k, lst) ∈ FRAMEWORK_COMPATIBILITY ∧
          _normalize_framework target ∈ lst ∧ ∃ f ∈ lst, f ∈ supported) := by
  unfold _is_framework_compatible
  split
  · simp_all
  · rename_i hnot
    simp only [List.any_eq_true, Bool.and_eq_true, decide_eq_true_eq]
    constructor
    · rintro ⟨⟨k, lst⟩, hmem, htgt, f, hf, hfs⟩
      exact Or.inr ⟨k, lst, hmem, htgt, f, hf, hfs⟩
    · rintro (h | ⟨k, lst, hmem, htgt, f, hf, hfs⟩)
      · exact absurd h hnot
      · exact ⟨(k, lst), hmem, htgt, f, hf, hfs⟩

/-- C2 witness: net45 is compatible with a package supporting net48 via the
net48 table entry, and an unknown identifier is not compatible. -/
theorem is_framework_compatible_iff_witness :
    (_is_framework_compatible (str "net45") [str "net48"] = true ↔
      (_normalize_framework (str "net45") ∈ [str "net48"] ∨
        ∃ k lst, (k, lst) ∈ FRAMEWORK_COMPATIBILITY ∧
          _normalize_framework (str "net45") ∈ lst ∧
            ∃ f ∈ lst, f ∈ [str "net48"])) ∧
      _is_framework_compatible (str "net45") [str "net48"] = true :=
  ⟨is_framework_compatible_iff (str "net45") [str "net48"], by decide⟩

lemma verLe_nil_left (bs : List Nat) : verLe [] bs = true := by
  cases bs <;> rfl

lemma verLe_total : ∀ a b : List Nat, verLe a b = true ∨ verLe b a = true := by
  intro a
  induction a with
  | nil => intro b; exact Or.inl (verLe_nil_left b)
  | cons x xs ih =>
    intro b
    cases b with
    | nil => exact Or.inr (verLe_nil_left _)
    | cons y ys =>
      rcases Nat.lt_trichotomy x y with h | h | h
      · left; simp [verLe, h]
      · subst h
        rcases ih ys with h' | h'
        · left; simp [verLe, h']
        · right; simp [verLe, h']
      · right; simp [verLe, h]

lemma verLe_trans :
    ∀ a b c : List Nat, verLe a b = true → verLe b c = true → verLe a c = true := by
  intro a
  induction a with
  | nil => intro b c _ _; exact verLe_nil_left c
  | cons x xs ih =>
    intro b c hab hbc
    cases b with
    | nil =>
      simp only [verLe, Bool.and_eq_true, beq_iff_eq] at hab
      obtain ⟨rfl, hxs⟩ := hab
      cases c with
      | nil => simp [verLe, hxs]
      | cons z zs =>
        simp only [verLe, Bool.or_eq_true, Bool.and_eq_true, beq_iff_eq,
          decide_eq_true_eq]
        rcases Nat.eq_zero_or_pos z with rfl | hz
        · exact Or.inr ⟨rfl, ih [] zs hxs (verLe_nil_left zs)⟩
        · exact Or.inl hz
    | cons y ys =>
      cases c with
      | nil =>
        simp only [verLe, Bool.and_eq_true, beq_iff_eq] at hbc ⊢
        obtain ⟨rfl, hys⟩ := hbc
        simp only [verLe, Bool.or_eq_true, Bool.and_eq_true, beq_iff_eq,
          decide_eq_true_eq] at hab
        rcases hab with h | ⟨rfl, hxy⟩
        · omega
        · exact ⟨rfl, ih ys [] hxy hys⟩
      | cons z zs =>
        simp only [verLe, Bool.or_eq_true, Bool.and_eq_true, beq_iff_eq,
          decide_eq_true_eq] at hab hbc ⊢
        rcases hab with h1 | ⟨rfl, h1⟩ <;> rcases hbc with h2 | ⟨rfl, h2⟩
        · exact Or.inl (Nat.lt_trans h1 h2)
        · exact Or.inl h1
        · exact Or.inl h2
        · exact Or.inr ⟨rfl, ih ys zs h1 h2⟩

instance : IsTotal Str versionGe :=
  ⟨fun a b =>
    show verLe (verKey b) (verKey a) = true ∨ verLe (verKey a) (verKey b) = true
    from verLe_total (verKey b) (verKey a)⟩

instance : IsTrans Str versionGe :=
  ⟨fun _ b _ hab hbc => verLe_trans _ (verKey b) _ hbc hab⟩

instance : IsTotal VersionInfo versionInfoGe :=
  ⟨fun a b =>
    show verLe (verKey b.version) (verKey a.version) = true ∨
        verLe (verKey a.version) (verKey b.version) = true
    from verLe_total (verKey b.version) (verKey a.version)⟩

instance : IsTrans VersionInfo versionInfoGe :=
  ⟨fun _ b _ hab hbc => verLe_trans _ (verKey b.version) _ hbc hab⟩

lemma foldl_collectStep (target : Str) (records : List VersionRecord)
    (acc : List Str × List VersionInfo) :
    records.foldl (collectStep target) acc =
      (acc.1 ++ (records.filter (compatPred target)).map VersionRecord.version,
       acc.2 ++ (records.filter (compatPred target)).map mkVersionInfo) := by
  induction records generalizing acc with
  | nil => simp
  | cons r rs ih =>
    rw [List.foldl_cons, ih]
    rcases hp : parseVersion r.version with _ | v
    · have hpred : compatPred target r = false := by
        simp [compatPred, hp]
      simp [collectStep, hp, List.filter_cons, hpred]
    · rcases hc : _is_framework_compatible target
          (_get_supported_frameworks r.dependencyGroups) with _ | _
      · have hpred : compatPred target r = false := by
          simp [compatPred, hc]
        simp [collectStep, hp, hc, List.filter_cons, hpred]
      · have hpred : compatPred target r = true := by
          simp [compatPred, hp, hc]
        simp [collectStep, hp, hc, List.filter_cons, hpred, mkVersionInfo]

/-- C1: on a fetched catalog, `get_compatible_versions` reports success, its
`compatible_versions` are exactly the records whose version parses and whose
declared (normalized) framework set is compatible with the normalized
target, sorted descending by parsed version, and `latest_compatible` is the
head of that sorted sequence. -/
theorem get_compatible_versions_correct (records : List VersionRecord)
    (package_id target_framework : Str) :
    (get_compatible_versions (Except.ok records) package_id
        target_framework).statusStr = str "success" ∧
    (get_compatible_versions (Except.ok records) package_id
        target_framework).compatibleVersions =
      compatibleVersionsSpec records target_framework ∧
    (get_compatible_versions (Except.ok records) package_id
        target_framework).latestCompatible =
      (compatibleVersionsSpec records target_framework).head? ∧
    List.Sorted versionGe
      ((get_compatible_versions (Except.ok records) package_id
        target_framework).compatibleVersions) := by
  simp only [get_compatible_versions]
  rw [foldl_collectStep]
  refine ⟨rfl, rfl, rfl, ?_⟩
  simp only [CompatResult.compatibleVersions]
  exact List.sorted_insertionSort versionGe _

/-- C1 witness: the theorem instantiated at a concrete two-record catalog. -/
theorem get_compatible_versions_correct_witness :
    (get_compatible_versions
        (Except.ok [⟨str "1.0.0", none, 0, [⟨str "net45"⟩]⟩,
          ⟨str "2.0.0", none, 0, [⟨str "netstandard2.0"⟩]⟩])
        (str "pkg") (str "net48")).statusStr = str "success" ∧
    (get_compatible_versions
        (Except.ok [⟨str "1.0.0", none, 0, [⟨str "net45"⟩]⟩,
          ⟨str "2.0.0", none, 0, [⟨str "netstandard2.0"⟩]⟩])
        (str "pkg") (str "net48")).compatibleVersions =
      compatibleVersionsSpec
        [⟨str "1.0.0", none, 0, [⟨str "net45"⟩]⟩,
          ⟨str "2.0.0", none, 0, [⟨str "netstandard2.0"⟩]⟩] (str "net48") ∧
    (get_compatible_versions
        (Except.ok [⟨str "1.0.0", none, 0, [⟨str "net45"⟩]⟩,
          ⟨str "2.0.0", none, 0, [⟨str "netstandard2.0"⟩]⟩])
        (str "pkg") (str "net48")).latestCompatible =
      (compatibleVersionsSpec
        [⟨str "1.0.0", none, 0, [⟨str "net45"⟩]⟩,
          ⟨str "2.0.0", none, 0, [⟨str "netstandard2.0"⟩]⟩] (str "net48")).head? ∧
    List.Sorted versionGe
      ((get_compatible_versions
        (Except.ok [⟨str "1.0.0", none, 0, [⟨str "net45"⟩]⟩,
          ⟨str "2.0.0", none, 0, [⟨str "netstandard2.0"⟩]⟩])
        (str "pkg") (str "net48")).compatibleVersions) :=
  get_compatible_versions_correct _ (str "pkg") (str "net48")

/-- C4: when no record's supported-framework set is compatible with the
target, the result is a successful envelope with an empty sequence and no
latest version - a negative result, not an error. -/
theorem get_compatible_versions_no_match (records : List VersionRecord)
    (package_id target_framework : Str)
    (h : ∀ r ∈ records,
      _is_framework_compatible (_normalize_framework target_framework)
        (_get_supported_frameworks r.dependencyGroups) = false) :
    get_compatible_versions (Except.ok records) package_id target_framework =
      CompatResult.success package_id (_normalize_framework target_framework)
        [] none [] := by
  simp only [get_compatible_versions]
  rw [foldl_collectStep]
  have hf : records.filter
      (compatPred (_normalize_framework target_framework)) = [] := by
    rw [List.filter_eq_nil_iff]
    intro r hr
    simp [compatPred, h r hr]
  simp [hf]

/-- C4 witness: a concrete catalog with no compatible record yields the
success envelope with an empty list and `none`. -/
theorem get_compatible_versions_no_match_witness :
    get_compatible_versions (Except.ok c4Records) (str "pkg") (str "fancyfw") =
      CompatResult.success (str "pkg") (_normalize_framework (str "fancyfw"))
        [] none [] :=
  get_compatible_versions_no_match c4Records (str "pkg") (str "fancyfw")
    (by decide)

/-- C5: an unparseable version string never fails the whole request - the
result on any catalog equals the result on the catalog with the unparseable
records removed, and such a version is absent from both
`compatible_versions` and `version_details`. -/
theorem get_compatible_versions_skips_invalid (records : List VersionRecord)
    (package_id target_framework : Str) :
    get_compatible_versions (Except.ok records) package_id target_framework =
      get_compatible_versions
        (Except.ok (records.filter fun r => (parseVersion r.version).isSome))
        package_id target_framework ∧
    ∀ r ∈ records, parseVersion r.version = none →
      r.version ∉ (get_compatible_versions (Except.ok records) package_id
        target_framework).compatibleVersions ∧
      r.version ∉ ((get_compatible_versions (Except.ok records) package_id
        target_framework).versionDetails.map VersionInfo.version) := by
  constructor
  · simp only [get_compatible_versions]
    rw [foldl_collectStep, foldl_collectStep, List.filter_filter]
    have : (fun r => compatPred (_normalize_framework target_framework) r &&
        (parseVersion r.version).isSome) =
        compatPred (_normalize_framework target_framework) := by
      funext r
      simp only [compatPred]
      cases (parseVersion r.version).isSome <;> simp
    rw [this]
  · intro r hr hnone
    simp only [get_compatible_versions]
    rw [foldl_collectStep]
    simp only [CompatResult.compatibleVersions, CompatResult.versionDetails,
      List.nil_append]
    constructor
    · intro hmem
      rw [List.mem_insertionSort] at hmem
      rcases List.mem_map.mp hmem with ⟨r', hr', hv⟩
      rcases List.mem_filter.mp hr' with ⟨_, hpred⟩
      have : (parseVersion r'.version).isSome = true := by
        simp only [compatPred, Bool.and_eq_true] at hpred
        exact hpred.1
      rw [hv, hnone] at this
      simp at this
    · intro hmem
      rcases List.mem_map.mp hmem with ⟨info, hinfo, hv⟩
      rw [List.mem_insertionSort] at hinfo
      rcases List.mem_map.mp hinfo with ⟨r', hr', hinfo'⟩
      rcases List.mem_filter.mp hr' with ⟨_, hpred⟩
      have : (parseVersion r'.version).isSome = true := by
        simp only [compatPred, Bool.and_eq_true] at hpred
        exact hpred.1
      have hvv : r'.version = r.version := by
        rw [← hinfo'] at hv
        simpa [mkVersionInfo] using hv
      rw [hvv, hnone] at this
      simp at this

/-- C5 witness: the unparseable version of a concrete mixed catalog is
absent from the successful result's `compatible_versions`. -/
theorem get_compatible_versions_skips_invalid_witness :
    str "notaversion" ∉
      (get_compatible_versions (Except.ok c5Records) (str "pkg")
        (str "net45")).compatibleVersions :=
  ((get_compatible_versions_skips_invalid c5Records (str "pkg")
      (str "net45")).2
    ⟨str "notaversion", none, 0, [⟨str "net45"⟩]⟩ (by decide) (by decide)).1

lemma lexLe_nil_left (bs : Str) : lexLe [] bs = true := by
  cases bs <;> rfl

lemma lexLe_total : ∀ a b : Str, lexLe a b = true ∨ lexLe b a = true := by
  intro a
  induction a with
  | nil => intro b; exact Or.inl (lexLe_nil_left b)
  | cons x xs ih =>
    intro b
    cases b with
    | nil => exact Or.inr (lexLe_nil_left _)
    | cons y ys =>
      rcases Nat.lt_trichotomy x y with h | h | h
      · left; simp [lexLe, h]
      · subst h
        rcases ih ys with h' | h'
        · left; simp [lexLe, h']
        · right; simp [lexLe, h']
      · right; simp [lexLe, h]

lemma lexLe_trans :
    ∀ a b c : Str, lexLe a b = true → lexLe b c = true → lexLe a c = true := by
  intro a
  induction a with
  | nil => intro b c _ _; exact lexLe_nil_left c
  | cons x xs ih =>
    intro b c hab hbc
    cases b with
    | nil => simp [lexLe] at hab
    | cons y ys =>
      cases c with
      | nil => simp [lexLe] at hbc
      | cons z zs =>
        simp only [lexLe, Bool.or_eq_true, Bool.and_eq_true, beq_iff_eq,
          decide_eq_true_eq] at hab hbc ⊢
        rcases hab with h1 | ⟨rfl, h1⟩ <;> rcases hbc with h2 | ⟨rfl, h2⟩
        · exact Or.inl (Nat.lt_trans h1 h2)
        · exact Or.inl h1
        · exact Or.inl h2
        · exact Or.inr ⟨rfl, ih ys zs h1 h2⟩

instance : IsTotal Str strGe :=
  ⟨fun a b =>
    show lexLe b a = true ∨ lexLe a b = true from (lexLe_total b a)⟩

instance : IsTrans Str strGe :=
  ⟨fun _ b _ hab hbc => lexLe_trans _ b _ hbc hab⟩

lemma mem_insertNew (l : List Str) (x v : Str) :
    v ∈ insertNew l x ↔ v ∈ l ∨ v = x := by
  unfold insertNew
  split
  · rename_i hx
    exact ⟨Or.inl, fun h => h.elim id (fun hv => hv ▸ hx)⟩
  · simp

lemma nodup_insertNew (l : List Str) (x : Str) (h : l.Nodup) :
    (insertNew l x).Nodup := by
  unfold insertNew
  split
  · exact h
  · rename_i hx
    simp [List.nodup_append, h, hx]

lemma mem_foldl_insertNew (xs : List Str) (acc : List Str) (v : Str) :
    v ∈ xs.foldl insertNew acc ↔ v ∈ acc ∨ v ∈ xs := by
  induction xs generalizing acc with
  | nil => simp
  | cons x xs ih =>
    rw [List.foldl_cons, ih, mem_insertNew]
    simp only [List.mem_cons]
    tauto

lemma nodup_foldl_insertNew (xs : List Str) (acc : List Str) (h : acc.Nodup) :
    (xs.foldl insertNew acc).Nodup := by
  induction xs generalizing acc with
  | nil => exact h
  | cons x xs ih => exact ih _ (nodup_insertNew _ _ h)

lemma mem_foldl_extractStep (package_name target_framework : Str)
    (results : List SearchResult) (acc : List Str) (v : Str) :
    v ∈ results.foldl (extractStep package_name target_framework) acc ↔
      v ∈ acc ∨ ∃ r ∈ results,
        (containsSub (lowerStr package_name) (lowerStr (resultText r)) = true ∧
         containsSub (lowerStr target_framework) (lowerStr (resultText r)) = true) ∧
        (v ∈ findall matchV3At (lowerStr (resultText r)) ∨
         v ∈ findall matchV2At (lowerStr (resultText r))) := by
  induction results generalizing acc with
  | nil => simp
  | cons r rs ih =>
    rw [List.foldl_cons, ih, List.exists_mem_cons_iff]
    unfold extractStep
    by_cases hc : (containsSub (lowerStr package_name) (lowerStr (resultText r)) &&
        containsSub (lowerStr target_framework) (lowerStr (resultText r))) = true
    · rw [if_pos hc, mem_foldl_insertNew, mem_foldl_insertNew]
      rw [Bool.and_eq_true] at hc
      constructor
      · rintro (((hv | hv) | hv) | hrest)
        · exact Or.inl hv
        · exact Or.inr (Or.inl ⟨hc, Or.inl hv⟩)
        · exact Or.inr (Or.inl ⟨hc, Or.inr hv⟩)
        · exact Or.inr (Or.inr hrest)
      · rintro (hv | (⟨_, hv | hv⟩ | hrest))
        · exact Or.inl (Or.inl (Or.inl hv))
        · exact Or.inl (Or.inl (Or.inr hv))
        · exact Or.inl (Or.inr hv)
        · exact Or.inr hrest
    · rw [if_neg hc]
      constructor
      · rintro (hv | hrest)
        · exact Or.inl hv
        · exact Or.inr (Or.inr hrest)
      · rintro (hv | (⟨⟨ha, hb⟩, _⟩ | hrest))
        · exact Or.inl hv
        · simp [ha, hb] at hc
        · exact Or.inr hrest

lemma nodup_foldl_extractStep (package_name target_framework : Str)
    (results : List SearchResult) (acc : List Str) (h : acc.Nodup) :
    (results.foldl (extractStep package_name target_framework) acc).Nodup := by
  induction results generalizing acc with
  | nil => exact h
  | cons r rs ih =>
    rw [List.foldl_cons]
    apply ih
    unfold extractStep
    split
    · exact nodup_foldl_insertNew _ _ (nodup_foldl_insertNew _ _ h)
    · exact h

/-- C6: a version string is in `extract_versions`' output iff some result
whose lowercased title+snippet contains both the package name and the
target identifier yields it as a match of one of the two numeric patterns;
the output is deduplicated and sorted descending as plain strings
(lexicographic order `strGe`, not numeric version order). -/
theorem extract_versions_correct (search_results : List SearchResult)
    (package_name target_framework : Str) :
    (∀ v : Str,
      v ∈ extract_versions search_results package_name target_framework ↔
        ∃ r ∈ search_results,
          (containsSub (lowerStr package_name) (lowerStr (resultText r)) = true ∧
           containsSub (lowerStr target_framework) (lowerStr (resultText r)) = true) ∧
          (v ∈ findall matchV3At (lowerStr (resultText r)) ∨
           v ∈ findall matchV2At (lowerStr (resultText r)))) ∧
    List.Sorted strGe
      (extract_versions search_results package_name target_framework) ∧
    (extract_versions search_results package_name target_framework).Nodup := by
  refine ⟨?_, ?_, ?_⟩
  · intro v
    unfold extract_versions
    rw [List.mem_insertionSort, mem_foldl_extractStep]
    simp
  · exact List.sorted_insertionSort strGe _
  · unfold extract_versions
    exact (List.perm_insertionSort strGe _).nodup_iff.mpr
      (nodup_foldl_extractStep _ _ _ _ List.nodup_nil)

/-- C6 witness: on a concrete result the output is exactly the deduplicated
matches in descending plain-string order - "9.1.2" sorts before "10.1.2",
showing the order is lexicographic, not numeric. -/
theorem extract_versions_correct_witness :
    (str "9.1.2" ∈ extract_versions
        [⟨str "pkg net48 versions 9.1.2 10.1.2", str "", str ""⟩]
        (str "pkg") (str "net48") ↔
      ∃ r ∈ [(⟨str "pkg net48 versions 9.1.2 10.1.2", str "", str ""⟩ :
          SearchResult)],
        (containsSub (lowerStr (str "pkg")) (lowerStr (resultText r)) = true ∧
         containsSub (lowerStr (str "net48")) (lowerStr (resultText r)) = true) ∧
        (str "9.1.2" ∈ findall matchV3At (lowerStr (resultText r)) ∨
         str "9.1.2" ∈ findall matchV2At (lowerStr (resultText r)))) ∧
    extract_versions [⟨str "pkg net48 versions 9.1.2 10.1.2", str "", str ""⟩]
        (str "pkg") (str "net48") =
      [str "9.1.2", str "10.1.2", str "1.2"] :=
  ⟨(extract_versions_correct
      [⟨str "pkg net48 versions 9.1.2 10.1.2", str "", str ""⟩]
      (str "pkg") (str "net48")).1 (str "9.1.2"),
   by decide⟩

/-- C10 counterexample: a qualifying result whose text contains the
three-component token 1.23.4 - the output contains the token itself but not
the two-component suffix "23.4" (the fragments are "1.2" and "3.4"), so the
claim's universal "returns also the suffix y.z" fails. -/
theorem extract_versions_suffix_cex :
    containsSub (lowerStr (str "pkg"))
      (lowerStr (resultText ⟨str "pkg net48 1.23.4", str "", str ""⟩)) = true ∧
    containsSub (lowerStr (str "net48"))
      (lowerStr (resultText ⟨str "pkg net48 1.23.4", str "", str ""⟩)) = true ∧
    str "1.23.4" ∈ extract_versions [⟨str "pkg net48 1.23.4", str "", str ""⟩]
      (str "pkg") (str "net48") ∧
    str "23.4" ∉ extract_versions [⟨str "pkg net48 1.23.4", str "", str ""⟩]
      (str "pkg") (str "net48") := by
  decide

/-- C10 (amended): every match of the two-component pattern in a qualifying
result's text is returned, and that pattern matches inside three-component
tokens because its lookahead only forbids a following dot - a text with
1.2.3 yields both "1.2.3" and "2.3", while a text with 1.23.4 yields the
spurious fragments "1.2" and "3.4" rather than the suffix "23.4". -/
theorem extract_versions_two_component_fragments :
    (∀ (search_results : List SearchResult)
        (package_name target_framework v : Str) (r : SearchResult),
      r ∈ search_results →
      containsSub (lowerStr package_name) (lowerStr (resultText r)) = true →
      containsSub (lowerStr target_framework) (lowerStr (resultText r)) = true →
      v ∈ findall matchV2At (lowerStr (resultText r)) →
      v ∈ extract_versions search_results package_name target_framework) ∧
    extract_versions [⟨str "pkg net48 1.2.3", str "", str ""⟩]
        (str "pkg") (str "net48") = [str "2.3", str "1.2.3"] ∧
    extract_versions [⟨str "pkg net48 1.23.4", str "", str ""⟩]
        (str "pkg") (str "net48") = [str "3.4", str "1.23.4", str "1.2"] := by
  refine ⟨?_, by decide, by decide⟩
  intro search_results package_name target_framework v r hr h1 h2 hv
  unfold extract_versions
  rw [List.mem_insertionSort, mem_foldl_extractStep]
  exact Or.inr ⟨r, hr, ⟨h1, h2⟩, Or.inr hv⟩

lemma foldl_append_vulns (f : SearchResult → List VulnRecord) :
    ∀ (results : List SearchResult) (acc : List VulnRecord),
      results.foldl (fun vulns r => vulns ++ f r) acc =
        acc ++ results.flatMap f := by
  intro results
  induction results with
  | nil => intro acc; simp
  | cons r rs ih =>
    intro acc
    rw [List.foldl_cons, ih, List.flatMap_cons, List.append_assoc]

/-- C7: vulnerability extraction yields exactly one record per CVE-pattern
match of each result's title+snippet, carrying that text's severity, where
severity is decided by first-match priority over critical, high, medium,
low on the lowercased text and defaults to "unknown" when no keyword
occurs. -/
theorem extract_vulnerability_info_correct (results : List SearchResult)
    (package_name version : Str) :
    (_extract_vulnerability_info results package_name version).vulnerabilities =
      results.flatMap (fun r =>
        (findall matchCVEAt (resultText r)).map (fun cve =>
          ⟨cve, r.link, r.snippet, _extract_severity (resultText r)⟩)) ∧
    (∀ t : Str, containsSub (str "critical") (lowerStr t) = true →
      _extract_severity t = str "critical") ∧
    (∀ t : Str, containsSub (str "critical") (lowerStr t) = false →
      containsSub (str "high") (lowerStr t) = true →
      _extract_severity t = str "high") ∧
    (∀ t : Str, containsSub (str "critical") (lowerStr t) = false →
      containsSub (str "high") (lowerStr t) = false →
      containsSub (str "medium") (lowerStr t) = true →
      _extract_severity t = str "medium") ∧
    (∀ t : Str, containsSub (str "critical") (lowerStr t) = false →
      containsSub (str "high") (lowerStr t) = false →
      containsSub (str "medium") (lowerStr t) = false →
      containsSub (str "low") (lowerStr t) = true →
      _extract_severity t = str "low") ∧
    (∀ t : Str, containsSub (str "critical") (lowerStr t) = false →
      containsSub (str "high") (lowerStr t) = false →
      containsSub (str "medium") (lowerStr t) = false →
      containsSub (str "low") (lowerStr t) = false →
      _extract_severity t = str "unknown") := by
  refine ⟨?_, ?_, ?_, ?_, ?_, ?_⟩
  · unfold _extract_vulnerability_info
    rw [foldl_append_vulns]
    simp
  all_goals intro t
  all_goals intros
  all_goals simp_all [_extract_severity]

/-- C7 witness: a snippet with one CVE and no severity keyword yields one
record with severity "unknown". -/
theorem extract_vulnerability_info_correct_witness :
    (_extract_vulnerability_info
        [⟨str "CVE-2024-0001 found", str "lnk", str "snip"⟩]
        (str "pkg") (str "1.0")).vulnerabilities =
      [⟨str "CVE-2024-0001", str "lnk", str "snip",
        _extract_severity (resultText
          ⟨str "CVE-2024-0001 found", str "lnk", str "snip"⟩)⟩] ∧
    _extract_severity (str "CVE-2024-0001 found") = str "unknown" :=
  ⟨by
    rw [(extract_vulnerability_info_correct
      [⟨str "CVE-2024-0001 found", str "lnk", str "snip"⟩]
      (str "pkg") (str "1.0")).1]
    decide,
   (extract_vulnerability_info_correct [] (str "pkg") (str "1.0")).2.2.2.2.2
     (str "CVE-2024-0001 found") (by decide) (by decide) (by decide) (by decide)⟩

/-- C8: the runtime transitive-chain check is asymmetric - java17 accepts a
package supporting java8 but not conversely - and in general succeeds iff
some supported runtime appears in the Java lineage table's list for the
lowercased target (a target absent from the table has the implicit empty
chain `[]` and never matches). -/
theorem is_compatible_chain_correct :
    is_compatible_chain (str "java17") [str "java8"] = true ∧
    is_compatible_chain (str "java8") [str "java17"] = false ∧
    ∀ (target_runtime : Str) (supported_runtimes : List Str),
      (is_compatible_chain target_runtime supported_runtimes = true ↔
        ∃ r ∈ supported_runtimes,
          r ∈ (JAVA_RUNTIME_COMPATIBILITY.lookup
            (lowerStr target_runtime)).getD []) := by
  refine ⟨by decide, by decide, ?_⟩
  intro target_runtime supported_runtimes
  unfold is_compatible_chain
  simp

/-- C8 witness: the characterization evaluated at java17 against a package
whose evidence mentions only java8. -/
theorem is_compatible_chain_correct_witness :
    is_compatible_chain (str "java17") [str "java8"] = true ↔
      ∃ r ∈ [str "java8"],
        r ∈ (JAVA_RUNTIME_COMPATIBILITY.lookup
          (lowerStr (str "java17"))).getD [] :=
  is_compatible_chain_correct.2.2 (str "java17") [str "java8"]

/-- C3 (code evidence): with a transport-successful catalog in which two
entries lack a version string, `get_package_versions` propagates the
`TypeError` raised while sorting (modelled by the outer `Except.error`)
instead of returning the uniform error envelope. -/
theorem get_package_versions_uncaught_exception :
    get_package_versions
        (Except.ok [⟨none, none, 0⟩, ⟨some (str "1.0.0"), none, 0⟩])
        (str "pkg") =
      Except.error () :=
  rfl
